import Mathlib

/-!
Verification of `python-frontend/typeshed_serializer/serializer/serializers.py`.

The Python module is shallowly embedded as follows.

* Python strings are Lean `String`s (lists of characters).  The string
  methods the source uses — `str.replace`, `str.endswith`, `str.startswith`,
  `str.lstrip`, substring containment (`in`) — are re-implemented below on
  `List Char` with Python's left-to-right, non-overlapping semantics.
* A Python `dict` is an association list (`List (key × value)`) with
  insertion-order semantics: `dictGet` is `dict.get` / subscript lookup and
  `dictSet` is subscript assignment (overwriting in place, appending fresh
  keys at the end, like CPython's insertion-ordered dicts).  A Python `set`
  of strings is a duplicate-free list grown with `setAdd`.
* `os.walk(path)` is represented by its result: a list of
  `(directory path, file names)` entries.  For a directory that does not
  exist, `os.walk` (with its default `onerror=None`) silently yields no
  entries, so such a walk is the empty list.
* The mypy engine (`mypy.build.build`) is an opaque collaborator and appears
  as an explicit `engine` argument where a function calls it.  Of a mypy
  `BuildResult` only its `files` member is consulted by the source, so a
  build result is represented by that mapping from module name to a
  `MypyFile` carrying the originating `path` and the module `fullname`.
* A raised Python exception is an `Except PyErr` error value.
-/

namespace Serializers

/-- Does the first character list occur as a prefix of the second? -/
def isPrefixList : List Char → List Char → Bool
  | [], _ => true
  | _ :: _, [] => false
  | p :: ps, c :: cs => p == c && isPrefixList ps cs

/-- Fuel-driven worker for `replaceAll`; the fuel is an upper bound on the
number of characters still to be scanned, so `replaceAllFuel s.length s`
never hits the out-of-fuel fallback. -/
def replaceAllFuel : Nat → List Char → List Char → List Char → List Char
  | 0, s, _, _ => s
  | _ + 1, [], _, _ => []
  | fuel + 1, c :: rest, pat, rep =>
    if isPrefixList pat (c :: rest) && !pat.isEmpty then
      rep ++ replaceAllFuel fuel ((c :: rest).drop pat.length) pat rep
    else
      c :: replaceAllFuel fuel rest pat rep

/-- Python `s.replace(pat, rep)`: replace every occurrence of `pat` in `s`,
scanning left to right without overlap (the source only ever calls it with a
non-empty `pat`). -/
def replaceAll (s pat rep : List Char) : List Char :=
  replaceAllFuel s.length s pat rep

/-- Python `s.replace(pat, rep)` lifted to `String`. -/
def pyReplace (s pat rep : String) : String :=
  ⟨replaceAll s.data pat.data rep.data⟩

/-- Python `s.endswith(suffix)`. -/
def pyEndsWith (s suf : String) : Bool :=
  isPrefixList suf.data.reverse s.data.reverse

/-- Python `s.startswith(pre)`. -/
def pyStartsWith (s pre : String) : Bool :=
  isPrefixList pre.data s.data

/-- Worker for substring containment. -/
def containsSubstr (pat : List Char) : List Char → Bool
  | [] => pat.isEmpty
  | c :: rest => isPrefixList pat (c :: rest) || containsSubstr pat rest

/-- Python `pat in s` on strings: substring containment. -/
def isSubstring (pat s : String) : Bool :=
  containsSubstr pat.data s.data

/-- Python `s.lstrip(".")`: drop every leading `'.'`. -/
def pyLstripDots (s : String) : String :=
  ⟨s.data.dropWhile (fun c => c == '.')⟩

/-- `dict.get` / subscript lookup on an insertion-ordered association list. -/
def dictGet {α : Type} : List (String × α) → String → Option α
  | [], _ => none
  | e :: rest, k => if e.1 == k then some e.2 else dictGet rest k

/-- Subscript assignment `d[k] = v` on an insertion-ordered association
list: an existing key keeps its position and gets the new value, a fresh key
is appended at the end. -/
def dictSet {α : Type} (d : List (String × α)) (k : String) (v : α) : List (String × α) :=
  if (dictGet d k).isSome then
    d.map (fun e => if e.1 == k then (k, v) else e)
  else
    d ++ [(k, v)]

/-- `set.add` on a duplicate-free list: membership-preserving insertion. -/
def setAdd (s : List String) (x : String) : List String :=
  if x ∈ s then s else s ++ [x]

/-- A Python exception escaping one of the embedded functions. -/
inductive PyErr where
  | keyError
  | attributeError
  | fileNotFound
deriving DecidableEq

/-- `mypy.build.BuildSource(file_path, module=fq_module_name)`: the two
fields the source populates. -/
structure BuildSource where
  path : String
  module : String
deriving DecidableEq

/-- The part of a mypy `MypyFile` the source consults: the originating file
`path` and the module `fullname`. -/
structure MypyFile where
  path : String
  fullname : String
deriving DecidableEq

/-- `BuildResult.files`: mypy's mapping from module name to `MypyFile`. -/
abbrev BuildFiles := List (String × MypyFile)

/-- Modelled from the spec: `serializer.symbols.ModuleSymbol` (the Module
Symbol Extractor, `symbols.py`, is not under `src/`).  Per the spec it is an
engine-independent representation of one module recording "its
fully-qualified name" plus its declarations; the declarations are opaque to
`serializers.py`, so only the fully-qualified name is represented and the
construction `ModuleSymbol(mypy_file)` keeps the engine module's fullname. -/
structure ModuleSymbol where
  fullname : String
deriving DecidableEq

/-- `symbols.ModuleSymbol(current_file)` applied to an engine module. -/
def ModuleSymbol.ofFile (f : MypyFile) : ModuleSymbol :=
  ⟨f.fullname⟩

/-- `SONAR_CUSTOM_BASE_STUB_MODULE` (serializers.py line 35). -/
def SONAR_CUSTOM_BASE_STUB_MODULE : String := "SonarPythonAnalyzerFakeStub"

/-- `IMPORTER_FILE_NAME` (serializers.py line 36). -/
def IMPORTER_FILE_NAME : String := "../resources/importer/sonar_third_party_libs.py"

/-- `IMPORTER_FQN` (serializers.py line 37). -/
def IMPORTER_FQN : String := "sonar_third_party_libs"

/-- `SUPPORTED_PYTHON_VERSIONS` (serializers.py line 38). -/
def SUPPORTED_PYTHON_VERSIONS : List (Nat × Nat) :=
  [(3, 6), (3, 7), (3, 8), (3, 9), (3, 10)]

/-- The mypy `Options` fields `get_options` sets (serializers.py lines
41-47). -/
structure Options where
  python_version : Nat × Nat
  platform : String
  incremental : Bool
deriving DecidableEq

/-- `get_options(python_version)` (serializers.py lines 41-47): a fresh
`Options` value with caching disabled, the requested interpreter version and
the fixed platform. -/
def get_options (python_version : Nat × Nat) : Options :=
  ⟨python_version, "linux", false⟩

/-- The default `python_version` argument of `get_options` and of
`Serializer.__init__` (serializers.py lines 41 and 95). -/
def DEFAULT_PYTHON_VERSION : Nat × Nat := (3, 8)

/-- `self.opt = get_options(python_version)` in `Serializer.__init__`
(serializers.py line 97). -/
def serializerInitOpt (python_version : Nat × Nat) : Options :=
  get_options python_version

/-- `package_name` computed for one walked directory (serializers.py line
73): strip the enumeration root, normalize both path separators to dots and
strip leading dots. -/
def packageNameOf (root path : String) : String :=
  pyLstripDots (pyReplace (pyReplace (pyReplace root path "") "\\" ".") "/" ".")

/-- `fq_module_name` derived from a package name and an extension-free
module name (serializers.py lines 82-84): dotted join, with `__init__`
collapsing to the bare package name. -/
def fqModuleName (package_name module_name : String) : String :=
  let fq := if package_name != "" then package_name ++ "." ++ module_name else module_name
  if module_name == "__init__" then package_name else fq

/-- Inner loop body of `get_sources` (serializers.py lines 77-88): one file
of one walked directory. -/
def getSourcesFileStep (package_name root : String)
    (acc : List BuildSource × List String) (file : String) :
    List BuildSource × List String :=
  if !(pyEndsWith file ".pyi") then
    acc
  else
    let module_name := pyReplace file ".pyi" ""
    let fq_module_name := fqModuleName package_name module_name
    let file_path := root ++ "/" ++ file
    (acc.1 ++ [⟨file_path, fq_module_name⟩], setAdd acc.2 file_path)

/-- Outer loop body of `get_sources` (serializers.py lines 72-88): one
walked directory, skipped entirely when its package name contains
`python2`. -/
def getSourcesDirStep (path : String)
    (acc : List BuildSource × List String) (entry : String × List String) :
    List BuildSource × List String :=
  let package_name := packageNameOf entry.1 path
  if isSubstring "python2" package_name then
    acc
  else
    entry.2.foldl (getSourcesFileStep package_name entry.1) acc

/-- `get_sources(relative_path)` (serializers.py lines 68-89), parameterized
by the `os.walk` result for the joined path and by that joined path itself
(`path = os.path.join(CURRENT_PATH, relative_path)`, line 71). -/
def get_sources (walk : List (String × List String)) (path : String) :
    List BuildSource × List String :=
  walk.foldl (getSourcesDirStep path) ([], [])

/-- `get_sources` seen through the Python exception channel: no statement in
its body can raise for a missing directory, because `os.walk` with its
default `onerror=None` silently yields no entries there, so the result is
always a successful return. -/
def getSourcesChecked (walk : List (String × List String)) (path : String) :
    Except PyErr (List BuildSource × List String) :=
  Except.ok (get_sources walk path)

/-- `TypeshedSerializer.is_exception(file, build_result, source_paths)`
(serializers.py lines 165-167).  The subscript
`build_result.files[file]` raises `KeyError` for a module name absent from
the mapping — before the `and` is evaluated. -/
def TypeshedSerializer.is_exception (is_third_parties : Bool) (file : String)
    (files : BuildFiles) (source_paths : List String) : Except PyErr Bool :=
  match dictGet files file with
  | none => Except.error PyErr.keyError
  | some mf => Except.ok (is_third_parties && decide (mf.path ∉ source_paths))

/-- `CustomStubsSerializer.is_exception(file, build_result, source_paths)`
(serializers.py lines 192-193).  The `or` short-circuits, so the designated
fake stub module never touches the path lookup; for any other module name
absent from `build_result.files`, `build_result.files.get(file)` is `None`
and the `.path` attribute access raises `AttributeError`. -/
def CustomStubsSerializer.is_exception (file : String) (files : BuildFiles)
    (path : String) : Except PyErr Bool :=
  if file == SONAR_CUSTOM_BASE_STUB_MODULE then
    Except.ok true
  else
    match dictGet files file with
    | none => Except.error PyErr.attributeError
    | some mf => Except.ok (!(pyStartsWith mf.path path))

/-- `ImporterSerializer.is_exception` (serializers.py lines 179-180). -/
def ImporterSerializer.is_exception (file : String) : Bool :=
  file == "sonar_third_party_libs"

/-- Loop body of the per-version module collection (serializers.py lines
150-156): skip a third-party engine module whose originating path is not in
this build's source-path set, otherwise store its `ModuleSymbol` under its
fullname. -/
def perVersionStep (is_third_parties : Bool) (source_paths : List String)
    (modules : List (String × ModuleSymbol)) (e : String × MypyFile) :
    List (String × ModuleSymbol) :=
  if is_third_parties && decide (e.2.path ∉ source_paths) then
    modules
  else
    let ms := ModuleSymbol.ofFile e.2
    dictSet modules ms.fullname ms

/-- The `modules` dict built for one version inside
`TypeshedSerializer.build_for_every_python_version` (serializers.py lines
149-156), from one engine build result and its source-path set. -/
def perVersionModules (is_third_parties : Bool) (files : BuildFiles)
    (source_paths : List String) : List (String × ModuleSymbol) :=
  files.foldl (perVersionStep is_third_parties source_paths) []

/-- The dict key `f"{major}{minor}"` (serializers.py line 157). -/
def versionKey (v : Nat × Nat) : String :=
  toString v.1 ++ toString v.2

/-- `TypeshedSerializer.build_for_every_python_version` (serializers.py
lines 143-158).  `engine` abstracts `walk_typeshed_third_parties` /
`walk_typeshed_stdlib`, which receive the per-version options and return
the engine build result (its `files` mapping) together with the source-path
set for this target. -/
def build_for_every_python_version (is_third_parties : Bool)
    (engine : Options → BuildFiles × List String) :
    List (String × List (String × ModuleSymbol)) :=
  SUPPORTED_PYTHON_VERSIONS.map (fun v =>
    let opt := get_options v
    let br := engine opt
    (versionKey v, perVersionModules is_third_parties br.1 br.2))

/-- The `all_python_modules` set built by
`TypeshedSerializer.get_merged_modules` (serializers.py lines 134-139):
iterate the version map, then each version's model, adding each module
symbol's `fullname`. -/
def allPythonModules (model_by_version : List (String × List (String × ModuleSymbol))) :
    List String :=
  model_by_version.foldl
    (fun acc vm => vm.2.foldl (fun acc2 e => setAdd acc2 e.2.fullname) acc) []

/-- A merged module as the Cross-Version Merger produces it: the module's
fully-qualified name and, per supported version that defines the module, the
`ModuleSymbol` that version contributed (the per-declaration reconciliation
below this level is opaque to `serializers.py`). -/
structure MergedModuleSymbol where
  fullname : String
  versionSymbols : List (String × ModuleSymbol)
deriving DecidableEq

/-- All identities, deduplicated and brought into the canonical (sorted)
order, making the merge independent of the iteration order of the incoming
set. -/
def canonicalIdentities (all_identities : List String) : List String :=
  List.insertionSort (· ≤ ·) all_identities.dedup

/-- Modelled from the spec: `merge_modules(all_python_modules,
model_by_version)` (`serializer/symbols_merger.py`, the Cross-Version
Merger, is not under `src/`).  Per spec section 4.5 it visits each identity
of `all_identities` (deterministically, independent of the set's iteration
order, which the canonical sorted order realises) and collects the
`(VersionTag, ModuleSymbol)` pairs of the versions in which that identity is
present, iterating the supported versions in their canonical order. -/
def merge_modules (all_identities : List String)
    (model_by_version : String → String → Option ModuleSymbol) :
    List (String × MergedModuleSymbol) :=
  (canonicalIdentities all_identities).map (fun id =>
    (id, ⟨id, (SUPPORTED_PYTHON_VERSIONS.map versionKey).filterMap (fun v =>
      (model_by_version v id).map (fun ms => (v, ms)))⟩))

/-- The per-version lookup `model_by_version[version][module_fqn]` as a
function, for handing the version map to the merger. -/
def modelLookup (model_by_version : List (String × List (String × ModuleSymbol)))
    (v id : String) : Option ModuleSymbol :=
  (dictGet model_by_version v).bind (fun model => dictGet model id)

/-- `TypeshedSerializer.get_merged_modules` (serializers.py lines 132-141),
taking the already-built version map as argument: compute
`all_python_modules` and hand both to the merger. -/
def get_merged_modules (model_by_version : List (String × List (String × ModuleSymbol))) :
    List (String × MergedModuleSymbol) :=
  merge_modules (allPythonModules model_by_version) (modelLookup model_by_version)

/-- `ImporterSerializer.get_build_result(opt)` (serializers.py lines
173-177): builds the single synthetic importer source with `self.opt` —
the `opt` parameter is ignored.  `current_path` is `CURRENT_PATH` and
`engine` is `mypy.build.build`. -/
def ImporterSerializer.get_build_result
    (engine : List BuildSource → Options → BuildFiles)
    (current_path : String) (self_opt opt : Options) : BuildFiles × List String :=
  let path := current_path ++ "/" ++ IMPORTER_FILE_NAME
  let source : BuildSource := ⟨path, IMPORTER_FQN⟩
  (engine [source] self_opt, [path])

/-- `CustomStubsSerializer.get_build_result(opt)` (serializers.py lines
187-190): enumerates the custom-stubs root and builds with `self.opt` — the
`opt` parameter is ignored.  `walk`/`path` stand for the filesystem walk of
the custom-stubs root as in `get_sources`. -/
def CustomStubsSerializer.get_build_result
    (engine : List BuildSource → Options → BuildFiles)
    (walk : List (String × List String)) (path : String)
    (self_opt opt : Options) : BuildFiles × List String :=
  let sources := get_sources walk path
  (engine sources.1 self_opt, sources.2)

/-! Helper lemmas shared by the claim theorems. -/

/-- A fold whose step ignores every element rejected by `p` is unchanged by
filtering the list with `p` first. -/
theorem foldl_skip_filter {α β : Type} (p : β → Bool) (step : α → β → α)
    (h : ∀ acc e, p e = false → step acc e = acc) (l : List β) :
    ∀ acc, l.foldl step acc = (l.filter p).foldl step acc := by
  induction l with
  | nil => intro acc; rfl
  | cons e rest ih =>
    intro acc
    cases hp : p e with
    | false => rw [List.foldl_cons, h acc e hp, List.filter_cons, if_neg (by simp [hp]), ih]
    | true => rw [List.foldl_cons, List.filter_cons, if_pos hp, List.foldl_cons, ih]

/-- Membership in a set after `setAdd`. -/
theorem mem_setAdd (s : List String) (x y : String) :
    y ∈ setAdd s x ↔ y ∈ s ∨ y = x := by
  by_cases hx : x ∈ s
  · rw [setAdd, if_pos hx]
    constructor
    · exact Or.inl
    · rintro (hy | rfl)
      · exact hy
      · exact hx
  · rw [setAdd, if_neg hx]
    simp

/-- Membership after folding one version's model into the
`all_python_modules` accumulator. -/
theorem mem_foldl_setAdd (model : List (String × ModuleSymbol))
    (acc : List String) (x : String) :
    x ∈ model.foldl (fun acc2 e => setAdd acc2 e.2.fullname) acc ↔
      x ∈ acc ∨ ∃ e, e ∈ model ∧ e.2.fullname = x := by
  induction model generalizing acc with
  | nil => simp
  | cons e rest ih =>
    rw [List.foldl_cons, ih, mem_setAdd]
    simp only [List.mem_cons]
    constructor
    · rintro ((h | h) | ⟨e1, h1, h2⟩)
      · exact Or.inl h
      · exact Or.inr ⟨e, Or.inl rfl, h.symm⟩
      · exact Or.inr ⟨e1, Or.inr h1, h2⟩
    · rintro (h | ⟨e1, (rfl | h1), h2⟩)
      · exact Or.inl (Or.inl h)
      · exact Or.inl (Or.inr h2.symm)
      · exact Or.inr ⟨e1, h1, h2⟩

/-- Membership in the fully folded `all_python_modules` accumulator. -/
theorem mem_allPythonModules_foldl
    (model_by_version : List (String × List (String × ModuleSymbol)))
    (acc : List String) (x : String) :
    x ∈ model_by_version.foldl
        (fun acc vm => vm.2.foldl (fun acc2 e => setAdd acc2 e.2.fullname) acc) acc ↔
      x ∈ acc ∨ ∃ vm, vm ∈ model_by_version ∧ ∃ e, e ∈ vm.2 ∧ e.2.fullname = x := by
  induction model_by_version generalizing acc with
  | nil => simp
  | cons vm rest ih =>
    rw [List.foldl_cons, ih, mem_foldl_setAdd]
    simp only [List.mem_cons]
    constructor
    · rintro ((h | ⟨e, he, hx⟩) | ⟨vm1, h1, h2⟩)
      · exact Or.inl h
      · exact Or.inr ⟨vm, Or.inl rfl, e, he, hx⟩
      · exact Or.inr ⟨vm1, Or.inr h1, h2⟩
    · rintro (h | ⟨vm1, (rfl | h1), h2⟩)
      · exact Or.inl (Or.inl h)
      · exact Or.inl (Or.inr h2)
      · exact Or.inr ⟨vm1, h1, h2⟩

/-- `all_python_modules` membership characterization. -/
theorem mem_allPythonModules
    (model_by_version : List (String × List (String × ModuleSymbol))) (x : String) :
    x ∈ allPythonModules model_by_version ↔
      ∃ vm, vm ∈ model_by_version ∧ ∃ e, e ∈ vm.2 ∧ e.2.fullname = x := by
  rw [allPythonModules, mem_allPythonModules_foldl]
  simp

/-- The canonical identity order preserves membership. -/
theorem mem_canonicalIdentities (l : List String) (x : String) :
    x ∈ canonicalIdentities l ↔ x ∈ l := by
  rw [canonicalIdentities, (List.perm_insertionSort _ _).mem_iff, List.mem_dedup]

/-- The canonical identity order only depends on the identity set, not on
its iteration order. -/
theorem canonicalIdentities_perm_invariant (l1 l2 : List String) (h : l1.Perm l2) :
    canonicalIdentities l1 = canonicalIdentities l2 := by
  rw [canonicalIdentities, canonicalIdentities]
  have hp : (List.insertionSort (· ≤ ·) l1.dedup).Perm (List.insertionSort (· ≤ ·) l2.dedup) :=
    (List.perm_insertionSort _ _).trans (h.dedup.trans (List.perm_insertionSort _ _).symm)
  have h1 : List.Sorted (· ≤ ·) (List.insertionSort (· ≤ ·) l1.dedup) :=
    List.sorted_insertionSort _ _
  have h2 : List.Sorted (· ≤ ·) (List.insertionSort (· ≤ ·) l2.dedup) :=
    List.sorted_insertionSort _ _
  exact List.eq_of_perm_of_sorted hp h1 h2

/-- The merged mapping is keyed by the canonical identity order. -/
theorem merge_modules_keys (l : List String)
    (model : String → String → Option ModuleSymbol) :
    (merge_modules l model).map Prod.fst = canonicalIdentities l := by
  rw [merge_modules, List.map_map]
  exact List.map_id _

/-! Claim theorems. -/

/-- C1: for the third-party target, an engine module whose originating path
is not in this build's source-path set is skipped by `is_exception` in
direct serialization, and the per-version module mapping of
`build_for_every_python_version` equals the one built from only the
in-source-path entries, so the out-of-path entries (such as an incidental
stdlib `typing`) contribute nothing to the PerVersionModel. -/
theorem third_party_exclusion (files : BuildFiles) (source_paths : List String)
    (file : String) (mf : MypyFile) (h1 : dictGet files file = some mf)
    (h2 : mf.path ∉ source_paths) :
    TypeshedSerializer.is_exception true file files source_paths = Except.ok true ∧
    perVersionModules true files source_paths =
      perVersionModules true (files.filter (fun e => decide (e.2.path ∈ source_paths)))
        source_paths := by
  constructor
  · rw [TypeshedSerializer.is_exception, h1]
    simp [h2]
  · rw [perVersionModules, perVersionModules]
    refine foldl_skip_filter _ _ ?_ files []
    intro acc e hpe
    have hnotin : e.2.path ∉ source_paths := of_decide_eq_false hpe
    rw [perVersionStep, if_pos (by simp [hnotin])]

/-- C1 witness: an engine result for a third-party target that also pulled
in the stdlib module `typing`, whose path is outside the target's
source-path set: `typing` is skipped and never appears in the per-version
module mapping. -/
theorem third_party_exclusion_witness :
    TypeshedSerializer.is_exception true "typing"
      [("typing", ⟨"/ts/stdlib/typing.pyi", "typing"⟩),
       ("requests", ⟨"/ts/stubs/requests/__init__.pyi", "requests"⟩)]
      ["/ts/stubs/requests/__init__.pyi"] = Except.ok true ∧
    (perVersionModules true
      [("typing", ⟨"/ts/stdlib/typing.pyi", "typing"⟩),
       ("requests", ⟨"/ts/stubs/requests/__init__.pyi", "requests"⟩)]
      ["/ts/stubs/requests/__init__.pyi"]).map Prod.fst = ["requests"] ∧
    "typing" ∉ (perVersionModules true
      [("typing", ⟨"/ts/stdlib/typing.pyi", "typing"⟩),
       ("requests", ⟨"/ts/stubs/requests/__init__.pyi", "requests"⟩)]
      ["/ts/stubs/requests/__init__.pyi"]).map Prod.fst := by
  refine ⟨(third_party_exclusion
    [("typing", ⟨"/ts/stdlib/typing.pyi", "typing"⟩),
     ("requests", ⟨"/ts/stubs/requests/__init__.pyi", "requests"⟩)]
    ["/ts/stubs/requests/__init__.pyi"] "typing" ⟨"/ts/stdlib/typing.pyi", "typing"⟩
    rfl (by decide)).1, by rfl, by decide⟩

/-- C2: the merge is deterministic and independent of the iteration order of
the identity set: for the same per-version inputs and any reordering of the
`all_identities` set (including the identity reordering, i.e. running the
merge twice), the output is identical. -/
theorem merge_modules_deterministic (l1 l2 : List String)
    (model : String → String → Option ModuleSymbol) (h : l1.Perm l2) :
    merge_modules l1 model = merge_modules l2 model := by
  rw [merge_modules, merge_modules, canonicalIdentities_perm_invariant l1 l2 h]

/-- C2 witness: the merge of a two-element identity set agrees with the
merge of its reversal. -/
theorem merge_modules_deterministic_witness :
    merge_modules ["typing", "os"] (fun _ _ => none) =
      merge_modules ["os", "typing"] (fun _ _ => none) :=
  merge_modules_deterministic _ _ _ (List.Perm.swap "os" "typing" [])

/-- C3: `all_python_modules` holds exactly the union, over every version's
model, of its modules' fullnames, and the identities the merge emits are
exactly those — no identity outside the union is merged and none in it is
omitted. -/
theorem merged_identities_union
    (model_by_version : List (String × List (String × ModuleSymbol))) (x : String) :
    (x ∈ allPythonModules model_by_version ↔
      ∃ version model, (version, model) ∈ model_by_version ∧
        ∃ fqn ms, (fqn, ms) ∈ model ∧ ms.fullname = x) ∧
    (x ∈ (get_merged_modules model_by_version).map Prod.fst ↔
      x ∈ allPythonModules model_by_version) := by
  constructor
  · rw [mem_allPythonModules]
    constructor
    · rintro ⟨⟨v, model⟩, hvm, ⟨fqn, ms⟩, he, hx⟩
      exact ⟨v, model, hvm, fqn, ms, he, hx⟩
    · rintro ⟨v, model, hvm, fqn, ms, he, hx⟩
      exact ⟨(v, model), hvm, (fqn, ms), he, hx⟩
  · rw [get_merged_modules, merge_modules_keys, mem_canonicalIdentities]

/-- C5: for the custom-stubs target, exclusion hits exactly the designated
base/fake stub module — always, whatever the files mapping holds — and any
other module exactly when its resolved path does not start with the
custom-stubs root. -/
theorem custom_stubs_exclusion (files : BuildFiles) (path file : String)
    (mf : MypyFile) (h : dictGet files file = some mf) :
    CustomStubsSerializer.is_exception SONAR_CUSTOM_BASE_STUB_MODULE files path =
      Except.ok true ∧
    (file ≠ SONAR_CUSTOM_BASE_STUB_MODULE →
      CustomStubsSerializer.is_exception file files path =
        Except.ok (!(pyStartsWith mf.path path))) := by
  constructor
  · rw [CustomStubsSerializer.is_exception]
    simp
  · intro hne
    have hf : (file == SONAR_CUSTOM_BASE_STUB_MODULE) = false :=
      beq_eq_false_iff_ne.mpr hne
    rw [CustomStubsSerializer.is_exception, if_neg (by simp [hf]), h]

/-- C5 witness: the fake stub module is excluded, an in-root module is kept
and an out-of-root module is excluded. -/
theorem custom_stubs_exclusion_witness :
    CustomStubsSerializer.is_exception SONAR_CUSTOM_BASE_STUB_MODULE
      [("good", ⟨"/custom/good.pyi", "good"⟩)] "/custom" = Except.ok true ∧
    CustomStubsSerializer.is_exception "good"
      [("good", ⟨"/custom/good.pyi", "good"⟩)] "/custom" = Except.ok false ∧
    CustomStubsSerializer.is_exception "bad"
      [("good", ⟨"/custom/good.pyi", "good"⟩), ("bad", ⟨"/elsewhere/bad.pyi", "bad"⟩)]
      "/custom" = Except.ok true := by
  refine ⟨(custom_stubs_exclusion [("good", ⟨"/custom/good.pyi", "good"⟩)] "/custom"
    "good" ⟨"/custom/good.pyi", "good"⟩ rfl).1, ?_, ?_⟩
  · exact ((custom_stubs_exclusion [("good", ⟨"/custom/good.pyi", "good"⟩)] "/custom"
      "good" ⟨"/custom/good.pyi", "good"⟩ rfl).2 (by decide)).trans (by rfl)
  · exact ((custom_stubs_exclusion
      [("good", ⟨"/custom/good.pyi", "good"⟩), ("bad", ⟨"/elsewhere/bad.pyi", "bad"⟩)]
      "/custom" "bad" ⟨"/elsewhere/bad.pyi", "bad"⟩ rfl).2 (by decide)).trans (by rfl)

/-- C6 counterexample: for a missing enumeration root — where `os.walk`
yields no entries — `get_sources` returns the empty enumeration as an
ordinary successful value instead of signalling a NotFound condition. -/
theorem get_sources_missing_root_counterexample :
    getSourcesChecked [] "/missing" = Except.ok ([], []) ∧
    Except.ok (([], []) : List BuildSource × List String) ≠
      (Except.error PyErr.fileNotFound : Except PyErr (List BuildSource × List String)) :=
  ⟨rfl, fun h => Except.noConfusion h⟩

/-- C6 amended: when the enumeration root does not exist, `os.walk` (default
`onerror=None`) yields nothing, and `get_sources` returns the empty
descriptor list and empty path set as a success value; no NotFound condition
is signalled. -/
theorem get_sources_missing_root_empty (path : String) :
    getSourcesChecked [] path = Except.ok ([], []) := rfl

/-- C7 counterexample: a module name absent from `build_result.files` makes
both exclusion checks raise — `CustomStubsSerializer.is_exception`
dereferences `None` (AttributeError) and `TypeshedSerializer.is_exception`
hits a failing subscript (KeyError) — instead of being treated as a skip. -/
theorem is_exception_missing_module_counterexample :
    CustomStubsSerializer.is_exception "missing_module" [] "/custom" =
      Except.error PyErr.attributeError ∧
    TypeshedSerializer.is_exception true "missing_module" [] [] =
      Except.error PyErr.keyError :=
  ⟨rfl, rfl⟩

/-- C7 amended: both exclusion checks are total — returning a Boolean skip
decision, never raising — over the module names the serializers actually
pass, namely the keys of `build_result.files`; a name absent from the
mapping instead raises (KeyError / AttributeError) rather than skipping. -/
theorem is_exception_total_on_present_modules (is_third_parties : Bool)
    (file : String) (files : BuildFiles) (source_paths : List String)
    (path : String) (mf : MypyFile) (h : dictGet files file = some mf) :
    TypeshedSerializer.is_exception is_third_parties file files source_paths =
      Except.ok (is_third_parties && decide (mf.path ∉ source_paths)) ∧
    CustomStubsSerializer.is_exception file files path =
      Except.ok (file == SONAR_CUSTOM_BASE_STUB_MODULE || !(pyStartsWith mf.path path)) := by
  constructor
  · rw [TypeshedSerializer.is_exception, h]
  · cases hf : (file == SONAR_CUSTOM_BASE_STUB_MODULE) with
    | true => rw [CustomStubsSerializer.is_exception, if_pos hf, Bool.true_or]
    | false =>
      rw [CustomStubsSerializer.is_exception, if_neg (by simp [hf]), h, Bool.false_or]

/-- C7 amended witness: for module names present in the files mapping both
checks return an ordinary Boolean decision. -/
theorem is_exception_total_on_present_modules_witness :
    TypeshedSerializer.is_exception true "m" [("m", ⟨"/stubs/m.pyi", "m"⟩)]
      ["/stubs/m.pyi"] = Except.ok false ∧
    CustomStubsSerializer.is_exception "m" [("m", ⟨"/custom/m.pyi", "m"⟩)]
      "/custom" = Except.ok false :=
  ⟨((is_exception_total_on_present_modules true "m" [("m", ⟨"/stubs/m.pyi", "m"⟩)]
      ["/stubs/m.pyi"] "/custom" ⟨"/stubs/m.pyi", "m"⟩ rfl).1).trans (by rfl),
   ((is_exception_total_on_present_modules false "m" [("m", ⟨"/custom/m.pyi", "m"⟩)]
      [] "/custom" ⟨"/custom/m.pyi", "m"⟩ rfl).2).trans (by rfl)⟩

/-- C8: every version build inside `build_for_every_python_version` consumes
a freshly constructed configuration fixing that version, the platform
`linux` and disabled incremental caching; configurations built for distinct
versions are distinct values, never shared. -/
theorem fresh_options_per_version :
    (∀ v, v ∈ SUPPORTED_PYTHON_VERSIONS → get_options v = ⟨v, "linux", false⟩) ∧
    (∀ v, v ∈ SUPPORTED_PYTHON_VERSIONS → ∀ w, w ∈ SUPPORTED_PYTHON_VERSIONS →
      v ≠ w → get_options v ≠ get_options w) ∧
    (∀ is_third_parties engine,
      build_for_every_python_version is_third_parties engine =
        SUPPORTED_PYTHON_VERSIONS.map (fun v =>
          (versionKey v,
            perVersionModules is_third_parties (engine ⟨v, "linux", false⟩).1
              (engine ⟨v, "linux", false⟩).2))) := by
  refine ⟨fun v _ => rfl, fun v _ w _ hvw hc => hvw ?_, fun tp engine => rfl⟩
  exact congrArg Options.python_version hc

/-- C8 witness: the 3.6 build's configuration as claimed, distinct from the
3.7 build's configuration. -/
theorem fresh_options_per_version_witness :
    get_options (3, 6) = ⟨(3, 6), "linux", false⟩ ∧
    get_options (3, 6) ≠ get_options (3, 7) :=
  ⟨fresh_options_per_version.1 (3, 6) (by decide),
   fresh_options_per_version.2.1 (3, 6) (by decide) (3, 7) (by decide) (by decide)⟩

/-- C9: a walked directory whose derived dotted package name contains
`python2` contributes nothing to `get_sources` output — enumeration over
the original walk equals enumeration over the walk with every such
directory removed, for the descriptor list and the path set alike. -/
theorem python2_trees_skipped (walk : List (String × List String)) (path : String) :
    get_sources walk path =
      get_sources
        (walk.filter (fun e => !(isSubstring "python2" (packageNameOf e.1 path))))
        path := by
  rw [get_sources, get_sources]
  refine foldl_skip_filter _ _ ?_ walk ([], [])
  intro acc e hpe
  have hsub : isSubstring "python2" (packageNameOf e.1 path) = true := by
    cases hs : isSubstring "python2" (packageNameOf e.1 path) with
    | true => rfl
    | false => rw [hs] at hpe; exact absurd hpe (by simp)
  rw [getSourcesDirStep]
  simp only [hsub, if_true]

/-- C10: `ImporterSerializer.get_build_result` and
`CustomStubsSerializer.get_build_result` ignore their `opt` argument — any
two option values produce the same build, which always uses the `self.opt`
constructed at initialization, whose default interpreter version is
`(3, 8)`. -/
theorem get_build_result_ignores_opt :
    (∀ engine current_path self_opt o1 o2,
      ImporterSerializer.get_build_result engine current_path self_opt o1 =
        ImporterSerializer.get_build_result engine current_path self_opt o2) ∧
    (∀ engine walk path self_opt o1 o2,
      CustomStubsSerializer.get_build_result engine walk path self_opt o1 =
        CustomStubsSerializer.get_build_result engine walk path self_opt o2) ∧
    serializerInitOpt DEFAULT_PYTHON_VERSION = ⟨(3, 8), "linux", false⟩ :=
  ⟨fun _ _ _ _ _ => rfl, fun _ _ _ _ _ _ => rfl, rfl⟩

/-- Folding an empty character list through `replaceAllFuel` yields the
empty list, for any fuel. -/
theorem replaceAllFuel_nil (fuel : Nat) (pat rep : List Char) :
    replaceAllFuel fuel [] pat rep = [] := by
  cases fuel <;> rfl

/-- Removing every occurrence of `.pyi` from `base ++ ".pyi"` gives back
`base` whenever `base` contains no dot — the worker version, by induction
over `base` with explicit fuel. -/
theorem replaceAllFuel_strip_pyi (base : List Char) (h : '.' ∉ base) (fuel : Nat)
    (hfuel : (base ++ ".pyi".data).length ≤ fuel) :
    replaceAllFuel fuel (base ++ ".pyi".data) ".pyi".data [] = base := by
  induction base generalizing fuel with
  | nil =>
    cases fuel with
    | zero => simp at hfuel
    | succ f =>
      show [] ++ replaceAllFuel f [] ".pyi".data [] = []
      rw [List.nil_append, replaceAllFuel_nil]
  | cons c bs ih =>
    simp only [List.mem_cons, not_or] at h
    obtain ⟨h1, h2⟩ := h
    cases fuel with
    | zero => simp at hfuel
    | succ f =>
      have hbc : ('.' == c) = false := beq_eq_false_iff_ne.mpr h1
      have hpre : (isPrefixList ".pyi".data (c :: (bs ++ ".pyi".data)) &&
          !(".pyi".data.isEmpty)) = false := by
        show (('.' == c && isPrefixList "pyi".data (bs ++ ".pyi".data)) && _) = false
        rw [hbc, Bool.false_and, Bool.false_and]
      have hstep : replaceAllFuel (f + 1) (c :: (bs ++ ".pyi".data)) ".pyi".data [] =
          c :: replaceAllFuel f (bs ++ ".pyi".data) ".pyi".data [] := by
        rw [replaceAllFuel, hpre]
        rfl
      have hf2 : (bs ++ ".pyi".data).length ≤ f := by
        rw [List.cons_append, List.length_cons] at hfuel
        omega
      rw [List.cons_append, hstep, ih h2 f hf2]

/-- Removing every occurrence of `.pyi` from a dot-free base name followed
by the `.pyi` extension strips exactly the extension. -/
theorem pyReplace_strip_pyi (base : List Char) (h : '.' ∉ base) :
    pyReplace ⟨base ++ ".pyi".data⟩ ".pyi" "" = ⟨base⟩ := by
  rw [pyReplace, replaceAll]
  exact congrArg String.mk (replaceAllFuel_strip_pyi base h _ (Nat.le_refl _))

/-- Descriptors produced by folding one walked directory's files. -/
theorem mem_getSourcesFileStep_foldl (package_name root : String)
    (files : List String) (acc : List BuildSource × List String) (s : BuildSource) :
    s ∈ (files.foldl (getSourcesFileStep package_name root) acc).1 ↔
      s ∈ acc.1 ∨ ∃ file, file ∈ files ∧ pyEndsWith file ".pyi" = true ∧
        s = ⟨root ++ "/" ++ file,
             fqModuleName package_name (pyReplace file ".pyi" "")⟩ := by
  induction files generalizing acc with
  | nil => simp
  | cons f rest ih =>
    rw [List.foldl_cons, ih]
    cases hf : pyEndsWith f ".pyi" with
    | false =>
      have hstep : getSourcesFileStep package_name root acc f = acc := by
        rw [getSourcesFileStep, if_pos (by rw [hf]; rfl)]
      rw [hstep]
      constructor
      · rintro (h | ⟨file, hmem, hend, hs⟩)
        · exact Or.inl h
        · exact Or.inr ⟨file, List.mem_cons_of_mem f hmem, hend, hs⟩
      · rintro (h | ⟨file, hmem, hend, hs⟩)
        · exact Or.inl h
        · rcases List.mem_cons.mp hmem with rfl | hmem2
          · rw [hf] at hend
            exact absurd hend (by simp)
          · exact Or.inr ⟨file, hmem2, hend, hs⟩
    | true =>
      have hstep : getSourcesFileStep package_name root acc f =
          (acc.1 ++ [⟨root ++ "/" ++ f, fqModuleName package_name (pyReplace f ".pyi" "")⟩],
           setAdd acc.2 (root ++ "/" ++ f)) := by
        rw [getSourcesFileStep, if_neg (by rw [hf]; simp)]
      rw [hstep]
      simp only [List.mem_append, List.mem_singleton]
      constructor
      · rintro ((h | rfl) | ⟨file, hmem, hend, hs⟩)
        · exact Or.inl h
        · exact Or.inr ⟨f, List.mem_cons_self f rest, hf, rfl⟩
        · exact Or.inr ⟨file, List.mem_cons_of_mem f hmem, hend, hs⟩
      · rintro (h | ⟨file, hmem, hend, hs⟩)
        · exact Or.inl (Or.inl h)
        · rcases List.mem_cons.mp hmem with rfl | hmem2
          · exact Or.inl (Or.inr hs)
          · exact Or.inr ⟨file, hmem2, hend, hs⟩

/-- Descriptors produced by the whole enumeration fold. -/
theorem mem_get_sources_foldl (walk : List (String × List String)) (path : String)
    (acc : List BuildSource × List String) (s : BuildSource) :
    s ∈ (walk.foldl (getSourcesDirStep path) acc).1 ↔
      s ∈ acc.1 ∨ ∃ entry, entry ∈ walk ∧
        isSubstring "python2" (packageNameOf entry.1 path) = false ∧
        ∃ file, file ∈ entry.2 ∧ pyEndsWith file ".pyi" = true ∧
          s = ⟨entry.1 ++ "/" ++ file,
               fqModuleName (packageNameOf entry.1 path) (pyReplace file ".pyi" "")⟩ := by
  induction walk generalizing acc with
  | nil => simp
  | cons entry rest ih =>
    rw [List.foldl_cons, ih]
    cases hp : isSubstring "python2" (packageNameOf entry.1 path) with
    | true =>
      have hstep : getSourcesDirStep path acc entry = acc := by
        rw [getSourcesDirStep]
        simp only [hp, if_true]
      rw [hstep]
      constructor
      · rintro (h | ⟨e, hmem, hsub, rest2⟩)
        · exact Or.inl h
        · exact Or.inr ⟨e, List.mem_cons_of_mem entry hmem, hsub, rest2⟩
      · rintro (h | ⟨e, hmem, hsub, rest2⟩)
        · exact Or.inl h
        · rcases List.mem_cons.mp hmem with rfl | hmem2
          · rw [hp] at hsub
            exact absurd hsub (by simp)
          · exact Or.inr ⟨e, hmem2, hsub, rest2⟩
    | false =>
      have hstep : getSourcesDirStep path acc entry =
          entry.2.foldl (getSourcesFileStep (packageNameOf entry.1 path) entry.1) acc := by
        rw [getSourcesDirStep]
        simp only [hp]
        rfl
      rw [hstep, mem_getSourcesFileStep_foldl]
      constructor
      · rintro ((h | ⟨file, hmem, hend, hs⟩) | ⟨e, hmem, hsub, rest2⟩)
        · exact Or.inl h
        · exact Or.inr ⟨entry, List.mem_cons_self entry rest, hp, file, hmem, hend, hs⟩
        · exact Or.inr ⟨e, List.mem_cons_of_mem entry hmem, hsub, rest2⟩
      · rintro (h | ⟨e, hmem, hsub, rest2⟩)
        · exact Or.inl (Or.inl h)
        · rcases List.mem_cons.mp hmem with rfl | hmem2
          · exact Or.inl (Or.inr rest2)
          · exact Or.inr ⟨e, hmem2, hsub, rest2⟩

/-- C4 counterexample: the stub file `a.pyi.pyi` is enumerated and its
derived module identity is `a` — every occurrence of `.pyi` is removed —
not the extension-stripped base name `a.pyi` the claim requires. -/
theorem module_identity_counterexample :
    (get_sources [("/ts", ["a.pyi.pyi"])] "/ts").1 = [⟨"/ts/a.pyi.pyi", "a"⟩] ∧
    "a" ≠ "a.pyi" :=
  ⟨rfl, by decide⟩

/-- C4 amended: every descriptor `get_sources` emits belongs to a walked,
non-`python2` directory and an enumerated `.pyi` file, and its identity is
the dotted directory path from the enumeration root joined — with the
`__init__` collapse — to the file's name with every occurrence of the
substring `.pyi` removed; for a base name without a dot (so `.pyi` occurs
only as the extension) this equals stripping the extension, and the
reference example files map as the claim states. -/
theorem module_identity_derivation (walk : List (String × List String))
    (path : String) (s : BuildSource) (hs : s ∈ (get_sources walk path).1) :
    (∃ entry, entry ∈ walk ∧
      isSubstring "python2" (packageNameOf entry.1 path) = false ∧
      ∃ file, file ∈ entry.2 ∧ pyEndsWith file ".pyi" = true ∧
        s = ⟨entry.1 ++ "/" ++ file,
             fqModuleName (packageNameOf entry.1 path) (pyReplace file ".pyi" "")⟩) ∧
    (∀ base : List Char, '.' ∉ base →
      pyReplace ⟨base ++ ".pyi".data⟩ ".pyi" "" = ⟨base⟩) ∧
    (∀ package_name : String, fqModuleName package_name "__init__" = package_name) ∧
    (get_sources [("/ts", ["mod.pyi"]), ("/ts/pkg/sub", ["__init__.pyi", "mod.pyi"])]
      "/ts").1 =
      [⟨"/ts/mod.pyi", "mod"⟩, ⟨"/ts/pkg/sub/__init__.pyi", "pkg.sub"⟩,
       ⟨"/ts/pkg/sub/mod.pyi", "pkg.sub.mod"⟩] := by
  refine ⟨?_, pyReplace_strip_pyi, fun _ => rfl, rfl⟩
  rcases (mem_get_sources_foldl walk path ([], []) s).mp hs with h | h
  · exact absurd h (List.not_mem_nil s)
  · exact h

/-- C4 amended witness: the descriptor for `pkg/sub/mod.pyi` in a concrete
enumeration satisfies the derivation. -/
theorem module_identity_derivation_witness :
    ∃ entry, entry ∈ ([("/ts/pkg/sub", ["mod.pyi"])] : List (String × List String)) ∧
      isSubstring "python2" (packageNameOf entry.1 "/ts") = false ∧
      ∃ file, file ∈ entry.2 ∧ pyEndsWith file ".pyi" = true ∧
        (⟨"/ts/pkg/sub/mod.pyi", "pkg.sub.mod"⟩ : BuildSource) =
          ⟨entry.1 ++ "/" ++ file,
           fqModuleName (packageNameOf entry.1 "/ts") (pyReplace file ".pyi" "")⟩ :=
  (module_identity_derivation [("/ts/pkg/sub", ["mod.pyi"])] "/ts"
    ⟨"/ts/pkg/sub/mod.pyi", "pkg.sub.mod"⟩ (by decide)).1

end Serializers
